import Mathlib

/-!
Shallow embedding of the warm-start-framework core:
`models/entity2rec/entity2rec.py` (Property, Entity2Rec fit / predict /
save_model / recommend, the per-typology similarity scorers and feature
fusion) and `models/pagerank/pagerank_recommender.py`
(construct_collaborative_graph, PageRankRecommender fit / predict and its
helpers).  External collaborators (the relatedness provider, the LambdaMART
trainer, the graph-diffusion engine) are passed in as function parameters;
Python dicts are association lists with dict semantics; numeric scores are
rationals; Python exceptions are the error branch of `Except`.
-/

namespace WarmStart

/-- Association-list lookup with Python dict semantics (keys unique by
construction of `dictInsert`, so the first match is the binding). -/
def dictGet {κ α : Type} [DecidableEq κ] (d : List (κ × α)) (k : κ) : Option α :=
  (d.find? (fun p => decide (p.1 = k))).map (fun p => p.2)

/-- Association-list insert with Python dict semantics: overwrite in place
when the key exists, append otherwise. -/
def dictInsert {κ α : Type} [DecidableEq κ] (d : List (κ × α)) (k : κ) (v : α) :
    List (κ × α) :=
  if (d.find? (fun p => decide (p.1 = k))).isSome then
    d.map (fun p => if p.1 = k then (k, v) else p)
  else d ++ [(k, v)]

/-- Arithmetic mean of a list of rationals, as np.mean. -/
def mean (l : List ℚ) : ℚ := l.sum / l.length

/-- First index of the maximal element, as np.argmax (ties broken by the
lowest index). -/
def argmaxIdx (l : List ℚ) : Nat :=
  (l.enum.foldl (fun best p => if p.2 > best.2 then p else best) (0, l.headD 0)).1

/-- Insert into a descending-sorted list, placing the new element before the
first element whose key is not greater: together with `sortDesc` this is the
stable descending sort semantics of Python sorted(key, reverse=True). -/
def insDesc {α : Type} (f : α → ℚ) (a : α) : List α → List α
  | [] => [a]
  | b :: l => if f b ≤ f a then a :: b :: l else b :: insDesc f a l

/-- Stable descending insertion sort: the documented semantics of Python
sorted(key, reverse=True), hence of heapq.nlargest after a take. -/
def sortDesc {α : Type} (f : α → ℚ) : List α → List α
  | [] => []
  | a :: l => insDesc f a (sortDesc f l)

/-- Knowledge-graph property with a name and a typology string (class
Property of entity2rec.py). -/
structure Property where
  name : String
  typology : String
deriving DecidableEq

/-- Property.__init__: stores the typology without any validation. -/
def Property.init (name typology : String) : Property := ⟨name, typology⟩

/-- The typology setter of class Property: raises ValueError unless the
assigned value is one of the three allowed typologies. -/
def Property.setTypology (p : Property) (value : String) : Except String Property :=
  if value ≠ "collaborative" ∧ value ≠ "content" ∧ value ≠ "social" then
    .error "Type of property can be: collaborative, content or social"
  else
    .ok { p with typology := value }

/-- Entity2Rec._set_properties: one content property per relation of the
triple set, then the synthetic feedback property typed collaborative,
appended last. -/
def set_properties (relations : List String) : List Property :=
  relations.map (fun r => Property.init r "content") ++
    [Property.init "feedback" "collaborative"]

/-- Entity2Rec.collab_similarities: one relatedness call per collaborative
property, in property order.  `rel` is the external relatedness provider. -/
def collab_similarities (rel : String → String → String → ℚ)
    (properties : List Property) (user item : String) : List ℚ :=
  (properties.filter (fun p => decide (p.typology = "collaborative"))).map
    (fun p => rel p.name user item)

/-- Entity2Rec.content_similarities: per content property, the mean
relatedness over the items the user liked; all zeros when that list is
empty. -/
def content_similarities (rel : String → String → String → ℚ)
    (properties : List Property) (item : String)
    (items_liked_by_user : List String) : List ℚ :=
  let cps := properties.filter (fun p => decide (p.typology = "content"))
  if items_liked_by_user.isEmpty then cps.map (fun _ => 0)
  else cps.map (fun p => mean (items_liked_by_user.map (fun past => rel p.name past item)))

/-- Entity2Rec.social_similarities: per social property, the mean
relatedness over the users liking the item; all zeros when that list is
empty. -/
def social_similarities (rel : String → String → String → ℚ)
    (properties : List Property) (user : String)
    (users_liking_the_item : List String) : List ℚ :=
  let sps := properties.filter (fun p => decide (p.typology = "social"))
  if users_liking_the_item.isEmpty then sps.map (fun _ => 0)
  else sps.map (fun p => mean (users_liking_the_item.map (fun past => rel p.name past user)))

/-- Entity2Rec.compute_user_item_features: first-match-wins dispatch over the
three view-override flags, else the concatenation collaborative ++ content
++ social. -/
def compute_user_item_features (rel : String → String → String → ℚ)
    (properties : List Property) (collab_only content_only social_only : Bool)
    (user item : String) (items_liked_by_user users_liking_the_item : List String) :
    List ℚ :=
  let collab := collab_similarities rel properties user item
  let content := content_similarities rel properties item items_liked_by_user
  let social := social_similarities rel properties user users_liking_the_item
  if collab_only then collab
  else if content_only then content
  else if social_only then social
  else collab ++ content ++ social

/-- The property order underlying the full feature-vector layout: the
concatenation order of compute_user_item_features (collaborative properties
first, then content, then social). -/
def layoutProperties (properties : List Property) : List Property :=
  properties.filter (fun p => decide (p.typology = "collaborative")) ++
    properties.filter (fun p => decide (p.typology = "content")) ++
    properties.filter (fun p => decide (p.typology = "social"))

/-- Per-slot score of the full feature vector, indexed by the slot property. -/
def perPropScore (rel : String → String → String → ℚ) (user item : String)
    (liked liking : List String) (p : Property) : ℚ :=
  if p.typology = "collaborative" then rel p.name user item
  else if p.typology = "content" then
    (if liked.isEmpty then 0 else mean (liked.map (fun past => rel p.name past item)))
  else if liking.isEmpty then 0 else mean (liking.map (fun past => rel p.name past user))

/-- Hyperparameters and training data handed to the external LambdaMART
trainer by Entity2Rec.fit. -/
structure FitData where
  x_train : List (List ℚ)
  y_train : List ℚ
  qids_train : List String
  lr : ℚ
  n_estimators : Nat
  max_depth : Nat

/-- Mutable model state of an Entity2Rec instance: the flat model, the
per-cluster models and the user-to-cluster routing table. -/
structure E2RState where
  model : Option (List ℚ → ℚ)
  models : List (Nat × (List ℚ → ℚ))
  user_to_cluster : Option (List (String × Nat))

/-- Entity2Rec.fit: validates the optimize metric (NDCG, P, AP; anything
else raises), substitutes the sentinel depth when N is falsy, builds a fresh
LambdaMART model through the external `trainer` (with a validation monitor
exactly when all three validation inputs are supplied) and stores it —
without ever checking whether a model is already present. -/
def E2RState.fit (trainer : String → Nat → Bool → FitData → (List ℚ → ℚ))
    (st : E2RState) (data : FitData) (x_val : Option (List (List ℚ)))
    (y_val : Option (List ℚ)) (qids_val : Option (List String))
    (optimize : String) (N : Nat) : Except String E2RState :=
  let n := if N = 0 then 10 ^ 8 else N
  if optimize = "NDCG" ∨ optimize = "P" ∨ optimize = "AP" then
    let monitor := x_val.isSome && y_val.isSome && qids_val.isSome
    .ok { st with model := some (trainer optimize n monitor data) }
  else .error "Metric not implemented"

/-- Entity2Rec.save_model: the inverted guard of the source — serialization
is only permitted while no model has been fit. -/
def E2RState.save_model (st : E2RState) : Except String Unit :=
  if st.model.isNone then .ok () else .error "Fit the model before saving it"

/-- Python truthiness of the user_to_cluster attribute: None and the empty
dict are falsy. -/
def truthyTable : Option (List (String × Nat)) → Bool
  | none => false
  | some t => !t.isEmpty

/-- The per-row cluster-routed scoring loop of Entity2Rec.predict: map each
row qid to its cluster, fetch the cluster model, score the single row; a
missing key raises and aborts the whole batch. -/
def clusterPreds (table : List (String × Nat)) (models : List (Nat × (List ℚ → ℚ))) :
    List (List ℚ × String) → Except String (List ℚ)
  | [] => .ok []
  | (line, qid) :: rest =>
    match dictGet table qid with
    | none => .error "KeyError"
    | some cluster =>
      match dictGet models cluster with
      | none => .error "KeyError"
      | some m => (clusterPreds table models rest).map (fun ps => m line :: ps)

/-- Entity2Rec.predict: cluster-routed when the routing table is truthy,
else the flat model on the whole batch, else the row-wise mean baseline. -/
def predict (user_to_cluster : Option (List (String × Nat)))
    (models : List (Nat × (List ℚ → ℚ))) (model : Option (List ℚ → ℚ))
    (x_test : List (List ℚ)) (qids_test : List String) : Except String (List ℚ) :=
  if truthyTable user_to_cluster then
    clusterPreds (user_to_cluster.getD []) models (x_test.zip qids_test)
  else
    match model with
    | some m => .ok (x_test.map m)
    | none => .ok (x_test.map mean)

/-- Dominant-property tag of Entity2Rec.recommend:
self.properties[np.argmax(features_row)].name. -/
def dominantName (properties : List Property) (row : List ℚ) : String :=
  match properties.get? (argmaxIdx row) with
  | some p => p.name
  | none => ""

/-- heapq.nlargest(N, range(k), key=preds[.]): stable descending sort of the
row indices by prediction, then take N. -/
def recsIndex (N : Nat) (preds : List ℚ) (k : Nat) : List Nat :=
  (sortDesc (fun i => preds.getD i 0) (List.range k)).take N

/-- Entity2Rec.recommend: select the rows whose qid equals the user, score
them by the model (average=False) or by the row mean (average=True), and
return the top-N (candidate, dominant property) pairs. -/
def recommend (properties : List Property) (model : Option (List ℚ → ℚ))
    (user : String) (qids_test : List String) (x_test : List (List ℚ))
    (items_test : List String) (N : Nat) (average : Bool) :
    Except String (List (String × String)) :=
  let rows := qids_test.zip (x_test.zip items_test)
  let sub := rows.filter (fun r => decide (r.1 = user))
  let features := sub.map (fun r => r.2.1)
  let candidates := sub.map (fun r => r.2.2)
  let predsE : Except String (List ℚ) :=
    if !average then
      match model with
      | none => .error "AttributeError: NoneType object has no attribute predict"
      | some m => .ok (features.map m)
    else .ok (features.map mean)
  predsE.map (fun preds =>
    (recsIndex N preds candidates.length).map
      (fun i => (candidates.getD i "", dominantName properties (features.getD i []))))

/-- One rating record of the diffusion pipeline, with the rated entity index
and the rating value. -/
structure Rating where
  e_idx : Nat
  rating : Nat
deriving DecidableEq

/-- Node of the collaborative graph: a synthetic user identifier string or a
raw entity index. -/
inductive PRNode where
  | user : String → PRNode
  | entity : Nat → PRNode
deriving DecidableEq

/-- Simple undirected graph as built by networkx: node list plus edge list
(an undirected edge is stored once, queried symmetrically). -/
structure PRGraph where
  nodes : List PRNode
  edges : List (PRNode × PRNode)
deriving DecidableEq

def emptyGraph : PRGraph := ⟨[], []⟩

/-- networkx add_node: idempotent node insertion. -/
def addNode (g : PRGraph) (n : PRNode) : PRGraph :=
  if n ∈ g.nodes then g else { g with nodes := g.nodes ++ [n] }

/-- Undirected edge membership. -/
def hasEdge (g : PRGraph) (a b : PRNode) : Prop :=
  (a, b) ∈ g.edges ∨ (b, a) ∈ g.edges

instance (g : PRGraph) (a b : PRNode) : Decidable (hasEdge g a b) := by
  unfold hasEdge
  infer_instance

/-- networkx add_edge: adds the endpoints when missing and the undirected
edge when not already present (no multi-edges). -/
def addEdge (g : PRGraph) (a b : PRNode) : PRGraph :=
  let g1 := addNode (addNode g a) b
  if hasEdge g1 a b then g1 else { g1 with edges := g1.edges ++ [(a, b)] }

/-- The inner rating loop of construct_collaborative_graph: skip the rating
when only_positive is set and the rating is not 1, else add the entity node
and the (user, entity) edge. -/
def addRatings (only_positive : Bool) (user_id : PRNode) (g : PRGraph) :
    List Rating → PRGraph
  | [] => g
  | r :: rs =>
    if only_positive && decide (r.rating ≠ 1) then addRatings only_positive user_id g rs
    else addRatings only_positive user_id
      (addEdge (addNode g (PRNode.entity r.e_idx)) user_id (PRNode.entity r.e_idx)) rs

/-- construct_collaborative_graph of pagerank_recommender.py. -/
def construct_collaborative_graph (g : PRGraph) (training : List (Nat × List Rating))
    (only_positive : Bool) : PRGraph :=
  match training with
  | [] => g
  | (u, rs) :: rest =>
    construct_collaborative_graph
      (addRatings only_positive (PRNode.user ("user_" ++ toString u))
        (addNode g (PRNode.user ("user_" ++ toString u))) rs)
      rest only_positive

/-- Mutable state of a PageRankRecommender instance, parametric in the graph
type produced by the (abstract in the base class) construct_graph. -/
structure PRState (G : Type) where
  graph : Option G
  alpha : Option ℚ
  only_positive : Bool
  user_ratings : List (Nat × List Rating)

/-- PageRankRecommender.get_source_nodes: the positively-filtered entity
indices of the user's recorded ratings; a user absent from user_ratings is a
KeyError. -/
def get_source_nodes (only_positive : Bool) (user_ratings : List (Nat × List Rating))
    (user : Nat) : Except String (List Nat) :=
  match dictGet user_ratings user with
  | none => .error "KeyError"
  | some ratings =>
    .ok ((ratings.filter (fun r => !(only_positive && decide (r.rating ≠ 1)))).map
      (fun r => r.e_idx))

/-- Total companion of get_source_nodes, used to state eligibility: the seed
entities of a user, empty when the user is unknown. -/
def seedsOf (only_positive : Bool) (user_ratings : List (Nat × List Rating))
    (user : Nat) : List Nat :=
  (((dictGet user_ratings user).getD []).filter
    (fun r => !(only_positive && decide (r.rating ≠ 1)))).map (fun r => r.e_idx)

/-- PageRankRecommender._scores: run the external diffusion engine
personalized on the (dict-deduplicated) source nodes and restrict the
resulting node-score mapping to the candidate items. -/
def pr_scores {G : Type} (pagerank : G → ℚ → List Nat → List (Nat × ℚ)) (g : G)
    (alpha : ℚ) (source_nodes : List Nat) (items : List Nat) : List (Nat × ℚ) :=
  (pagerank g alpha source_nodes.eraseDups).filter (fun p => decide (p.1 ∈ items))

/-- PageRankRecommender._validate: score the true validation item plus its
negatives, sort descending by score (stable), keep the top k and report
whether the true item is among them. -/
def pr_validate {G : Type} (pagerank : G → ℚ → List Nat → List (Nat × ℚ)) (g : G)
    (alpha : ℚ) (source_nodes : List Nat) (validation_item : Nat)
    (negatives : List Nat) (k : Nat) : Bool :=
  let scores := pr_scores pagerank g alpha source_nodes (validation_item :: negatives)
  let top := (sortDesc (fun p => p.2) scores).take k
  decide (validation_item ∈ top.map (fun p => p.1))

/-- The per-alpha validation loop of PageRankRecommender.fit, accumulating
(hits, count); users whose source-node list is empty are skipped. -/
def alphaStats {G : Type} (pagerank : G → ℚ → List Nat → List (Nat × ℚ)) (g : G)
    (only_positive : Bool) (user_ratings : List (Nat × List Rating)) (alpha : ℚ)
    (acc : Nat × Nat) : List (Nat × Nat × List Nat) → Except String (Nat × Nat)
  | [] => .ok acc
  | (user, vt) :: rest => do
    let sources ← get_source_nodes only_positive user_ratings user
    if sources.isEmpty then
      alphaStats pagerank g only_positive user_ratings alpha acc rest
    else
      alphaStats pagerank g only_positive user_ratings alpha
        (acc.1 + (if pr_validate pagerank g alpha sources vt.1 vt.2 10 then 1 else 0),
          acc.2 + 1) rest

/-- np.linspace(0.1, 1, 10)[:-1]: the alpha grid 0.1, 0.2, ..., 0.9. -/
def alphaRanges : List ℚ := (List.range 9).map (fun i => ((i : ℚ) + 1) / 10)

/-- The alpha loop of PageRankRecommender.fit: per alpha, the validation
stats and the hit ratio hits / count — count = 0 is Python division by
zero. -/
def alphaTable {G : Type} (pagerank : G → ℚ → List Nat → List (Nat × ℚ)) (g : G)
    (only_positive : Bool) (user_ratings : List (Nat × List Rating))
    (validation : List (Nat × Nat × List Nat)) :
    List ℚ → Except String (List (ℚ × ℚ))
  | [] => .ok []
  | alpha :: rest => do
    let hc ← alphaStats pagerank g only_positive user_ratings alpha (0, 0) validation
    if hc.2 = 0 then .error "ZeroDivisionError"
    else
      (alphaTable pagerank g only_positive user_ratings validation rest).map
        (fun t => (alpha, (hc.1 : ℚ) / (hc.2 : ℚ)) :: t)

/-- max(alpha_hit.items(), key=itemgetter(1))[0]: the key of the first
maximal-value entry (Python max keeps the first on ties). -/
def maxByValue (l : List (ℚ × ℚ)) : Option ℚ :=
  match l with
  | [] => none
  | x :: xs => some ((xs.foldl (fun best p => if p.2 > best.2 then p else best) x).1)

/-- The user_ratings dict after the recording loop of fit. -/
def buildUserRatings (init : List (Nat × List Rating))
    (training : List (Nat × List Rating)) : List (Nat × List Rating) :=
  training.foldl (fun d p => dictInsert d p.1 p.2) init

/-- PageRankRecommender.fit: record the training ratings, build the
collaborative graph, grid-search alpha against validation hit ratio and
store the arg-max alpha; returns the new state and the alpha table. -/
def pr_fit {G : Type} (pagerank : G → ℚ → List Nat → List (Nat × ℚ))
    (construct_graph : List (Nat × List Rating) → G) (st : PRState G)
    (training : List (Nat × List Rating)) (validation : List (Nat × Nat × List Nat)) :
    Except String (PRState G × List (ℚ × ℚ)) := do
  let ur := buildUserRatings st.user_ratings training
  let g := construct_graph training
  let table ← alphaTable pagerank g st.only_positive ur validation alphaRanges
  match maxByValue table with
  | none => .error "ValueError: max arg is an empty sequence"
  | some a =>
    .ok ({ graph := some g, alpha := some a, only_positive := st.only_positive,
           user_ratings := ur }, table)

/-- PageRankRecommender.predict: diffusion scores from the user's source
nodes restricted to the candidate items, at the stored operating alpha. -/
def pr_predict {G : Type} (pagerank : G → ℚ → List Nat → List (Nat × ℚ))
    (st : PRState G) (user : Nat) (items : List Nat) :
    Except String (List (Nat × ℚ)) := do
  let sources ← get_source_nodes st.only_positive st.user_ratings user
  match st.graph, st.alpha with
  | some g, some a => .ok (pr_scores pagerank g a sources items)
  | _, _ => .error "TypeError"

/-- Success flag of an Except value (Python: no exception was raised). -/
def isOkE {ε α : Type} : Except ε α → Bool
  | .ok _ => true
  | .error _ => false

/-- x precedes y in a stable descending sort by f of an R-ordered input:
strictly larger key, or equal key and R-earlier position. -/
def rankBefore {α : Type} (f : α → ℚ) (R : α → α → Prop) (x y : α) : Prop :=
  f y < f x ∨ (f x = f y ∧ R x y)

theorem mem_insDesc {α : Type} (f : α → ℚ) (a x : α) (l : List α) :
    x ∈ insDesc f a l ↔ x = a ∨ x ∈ l := by
  induction l with
  | nil => simp [insDesc]
  | cons b t ih =>
    unfold insDesc
    split
    · simp only [List.mem_cons]
    · simp only [List.mem_cons, ih]
      tauto

theorem insDesc_perm {α : Type} (f : α → ℚ) (a : α) (l : List α) :
    List.Perm (insDesc f a l) (a :: l) := by
  induction l with
  | nil => exact List.Perm.refl _
  | cons b t ih =>
    unfold insDesc
    split
    · exact List.Perm.refl _
    · exact List.Perm.trans (List.Perm.cons b ih) (List.Perm.swap a b t)

theorem sortDesc_perm {α : Type} (f : α → ℚ) (l : List α) :
    List.Perm (sortDesc f l) l := by
  induction l with
  | nil => exact List.Perm.refl _
  | cons a t ih => exact List.Perm.trans (insDesc_perm f a _) (List.Perm.cons a ih)

theorem sortDesc_length {α : Type} (f : α → ℚ) (l : List α) :
    (sortDesc f l).length = l.length :=
  (sortDesc_perm f l).length_eq

theorem insDesc_pairwise_lex {α : Type} (f : α → ℚ) (R : α → α → Prop) (a : α)
    (l : List α) (ha : ∀ b ∈ l, R a b) (hl : l.Pairwise (rankBefore f R)) :
    (insDesc f a l).Pairwise (rankBefore f R) := by
  induction l with
  | nil => simp [insDesc]
  | cons b t ih =>
    rw [List.pairwise_cons] at hl
    obtain ⟨hb, ht⟩ := hl
    unfold insDesc
    split
    case isTrue h =>
      refine List.Pairwise.cons ?_ (List.Pairwise.cons hb ht)
      intro x hx
      have hRax : R a x := ha x hx
      have hfx : f x ≤ f b := by
        rcases List.mem_cons.mp hx with rfl | hx'
        · exact le_refl _
        · rcases hb x hx' with h1 | ⟨h1, _⟩
          · exact le_of_lt h1
          · exact le_of_eq h1.symm
      rcases lt_or_eq_of_le (le_trans hfx h) with h2 | h2
      · exact Or.inl h2
      · exact Or.inr ⟨h2.symm, hRax⟩
    case isFalse h =>
      have hab : f a < f b := lt_of_not_le h
      refine List.Pairwise.cons ?_
        (ih (fun x hx => ha x (List.mem_cons_of_mem b hx)) ht)
      intro x hx
      rcases (mem_insDesc f a x t).mp hx with rfl | hx'
      · exact Or.inl hab
      · exact hb x hx'

theorem sortDesc_pairwise_lex {α : Type} (f : α → ℚ) (R : α → α → Prop) (l : List α)
    (hl : l.Pairwise R) : (sortDesc f l).Pairwise (rankBefore f R) := by
  induction l with
  | nil => exact List.Pairwise.nil
  | cons a t ih =>
    rw [List.pairwise_cons] at hl
    exact insDesc_pairwise_lex f R a (sortDesc f t)
      (fun b hb => hl.1 b ((sortDesc_perm f t).mem_iff.mp hb)) (ih hl.2)

theorem recsIndex_length (N : Nat) (preds : List ℚ) (k : Nat) :
    (recsIndex N preds k).length = min N k := by
  unfold recsIndex
  rw [List.length_take, sortDesc_length, List.length_range]

theorem recsIndex_pairwise (N : Nat) (preds : List ℚ) (k : Nat) :
    (recsIndex N preds k).Pairwise
      (rankBefore (fun i => preds.getD i 0) (fun a b => a < b)) :=
  List.Pairwise.sublist (List.take_sublist _ _)
    (sortDesc_pairwise_lex _ _ _ (List.pairwise_lt_range k))

theorem zip_proj_eq (sub : List (String × List ℚ × String)) :
    (sub.map (fun r => r.1)).zip
      ((sub.map (fun r => r.2.1)).zip (sub.map (fun r => r.2.2))) = sub := by
  induction sub with
  | nil => rfl
  | cons a t ih => simp [List.zip, ih]

/-- The full feature vector lists one slot per property of the layout order,
each slot scored by its own property (substantiates layoutProperties as the
vector layout of the source concatenation). -/
theorem compute_features_layout (rel : String → String → String → ℚ)
    (props : List Property) (user item : String) (liked liking : List String)
    (hl : ¬liked.isEmpty) (hk : ¬liking.isEmpty) :
    compute_user_item_features rel props false false false user item liked liking =
      (layoutProperties props).map (perPropScore rel user item liked liking) := by
  unfold compute_user_item_features layoutProperties collab_similarities
    content_similarities social_similarities
  simp only [if_false, Bool.false_eq_true, ite_false, List.map_append]
  rw [if_neg hl, if_neg hk]
  refine congrArg₂ _ (congrArg₂ _ ?_ ?_) ?_
  · refine List.map_congr_left ?_
    intro p hp
    have hc := (List.mem_filter.mp hp).2
    rw [decide_eq_true_eq] at hc
    simp [perPropScore, hc]
  · refine List.map_congr_left ?_
    intro p hp
    have hc := (List.mem_filter.mp hp).2
    rw [decide_eq_true_eq] at hc
    simp [perPropScore, hc, hl]
  · refine List.map_congr_left ?_
    intro p hp
    have hc := (List.mem_filter.mp hp).2
    rw [decide_eq_true_eq] at hc
    simp [perPropScore, hc, hk]

/-- Relatedness provider used for the concrete refutations: the feedback
property relates everything at 5, any other property at 3. -/
def rel0 : String → String → String → ℚ :=
  fun p _ _ => if p = "feedback" then 5 else 3

/-- The registered properties of a dataset with the single relation
starring. -/
def props0 : List Property := set_properties ["starring"]

/-- C1: in recommend, the reported dominant property is
self.properties[argmax(row)] under the registration order (content
properties first, feedback appended last), while the feature vector of
compute_user_item_features is laid out collaborative-first: at the feature
row [5, 3] (feedback score 5, starring score 3) the arg-max position 0
belongs to the feedback property under the vector layout, yet recommend
reports starring. -/
theorem C1_dominant_property_mismatch :
    recommend props0 none "u" ["u"] [[5, 3]] ["i"] 10 true = .ok [("i", "starring")] ∧
    compute_user_item_features rel0 props0 false false false "u" "i" ["past"] [] =
      [5, 3] ∧
    argmaxIdx [5, 3] = 0 ∧
    (layoutProperties props0).get? 0 = some (Property.init "feedback" "collaborative") ∧
    (Property.init "feedback" "collaborative").name ≠ "starring" := by
  refine ⟨rfl, ?_, rfl, rfl, by decide⟩
  norm_num [compute_user_item_features, collab_similarities, content_similarities,
    social_similarities, mean, props0, set_properties, rel0, Property.init,
    List.filter_cons, List.filter_nil]
  decide

/-- Trainer stub for the concrete refit refutation: every trained model
predicts 0. -/
def trainer0 : String → Nat → Bool → FitData → (List ℚ → ℚ) :=
  fun _ _ _ _ _ => 0

def data0 : FitData := ⟨[[1]], [1], ["u"], 1 / 10, 100, 5⟩

/-- An instance whose model is already trained (it predicts 1 on every
input). -/
def st0 : E2RState := ⟨some (fun _ => 1), [], none⟩

def fitResult0 : Except String E2RState :=
  E2RState.fit trainer0 st0 data0 none none none "P" 5

/-- Behaviour probe: the stored model evaluated at the row [5]. -/
def applyModel5 (st : E2RState) : Option ℚ := st.model.map (fun m => m [5])

/-- C2 counterexample: calling fit on an instance whose model is already
trained succeeds (it is not rejected) and replaces the stored model, whose
prediction on [5] changes from 1 to 0 — so the trained model is neither
refit-protected nor read-only. -/
theorem C2_refit_not_rejected :
    isOkE fitResult0 = true ∧
    fitResult0.toOption.map applyModel5 = some (some 0) ∧
    applyModel5 st0 = some 1 :=
  ⟨rfl, rfl, rfl⟩

/-- C2 amended: fit never inspects the training state — with a recognized
metric it always succeeds and overwrites st.model in place; what is
rejected on a trained instance is save_model (the inverted guard serializes
only while no model exists). -/
theorem C2_refit_replaces_model :
    (∀ (trainer : String → Nat → Bool → FitData → (List ℚ → ℚ)) (st : E2RState)
       (data : FitData) (x_val : Option (List (List ℚ))) (y_val : Option (List ℚ))
       (qids_val : Option (List String)) (N : Nat),
       E2RState.fit trainer st data x_val y_val qids_val "P" N =
         .ok { st with model := some (trainer "P" (if N = 0 then 10 ^ 8 else N)
           (x_val.isSome && y_val.isSome && qids_val.isSome) data) }) ∧
    (∀ (m : List ℚ → ℚ) (models : List (Nat × (List ℚ → ℚ)))
       (u2c : Option (List (String × Nat))),
       E2RState.save_model ⟨some m, models, u2c⟩ =
         .error "Fit the model before saving it") := by
  constructor
  · intro trainer st data x_val y_val qids_val N
    unfold E2RState.fit
    rw [if_pos (Or.inr (Or.inl rfl))]
  · intro m models u2c
    rfl

/-- C3 counterexample: with collab_only and content_only both set,
compute_user_item_features is not rejected — it silently returns the
collaborative typology scores. -/
theorem C3_multiple_overrides_not_rejected :
    compute_user_item_features rel0 props0 true true false "u" "i" [] [] =
      collab_similarities rel0 props0 "u" "i" ∧
    collab_similarities rel0 props0 "u" "i" = [5] :=
  ⟨rfl, rfl⟩

/-- C3 amended: configurations with several view-override flags set are
never rejected; the first set flag in the fixed order collab_only,
content_only, social_only wins and only that typology is returned. -/
theorem C3_first_flag_wins :
    (∀ (rel : String → String → String → ℚ) (props : List Property) (b c : Bool)
       (user item : String) (liked liking : List String),
       compute_user_item_features rel props true b c user item liked liking =
         collab_similarities rel props user item) ∧
    (∀ (rel : String → String → String → ℚ) (props : List Property) (c : Bool)
       (user item : String) (liked liking : List String),
       compute_user_item_features rel props false true c user item liked liking =
         content_similarities rel props item liked) ∧
    (∀ (rel : String → String → String → ℚ) (props : List Property)
       (user item : String) (liked liking : List String),
       compute_user_item_features rel props false false true user item liked liking =
         social_similarities rel props user liking) :=
  ⟨fun _ _ _ _ _ _ _ _ => rfl, fun _ _ _ _ _ _ _ => rfl, fun _ _ _ _ _ _ => rfl⟩

/-- Single-property registry used for the concrete top-N example. -/
def props1 : List Property := [Property.init "feedback" "collaborative"]

/-- C7: recommend considers exactly the rows whose query id equals the user
(conjunct 4: the result is unchanged by restricting the inputs to that
subset); an empty subset yields the empty list, not an error (conjunct 1);
the result length is min(N, subset size) (conjunct 2); the selected indices
are ordered by strictly descending score with ties broken by the original
row order (conjunct 3); and on candidates A, B, C, D with scores 0.9, 0.5,
0.9, 0.2 and N = 2 the result is A then C (conjunct 5). -/
theorem C7_recommend_topn :
    (∀ (props : List Property) (model : Option (List ℚ → ℚ)) (user : String)
       (qids : List String) (x : List (List ℚ)) (items : List String) (N : Nat),
       (qids.zip (x.zip items)).filter (fun r => decide (r.1 = user)) = [] →
       recommend props model user qids x items N true = .ok []) ∧
    (∀ (props : List Property) (model : Option (List ℚ → ℚ)) (user : String)
       (qids : List String) (x : List (List ℚ)) (items : List String) (N : Nat),
       (recommend props model user qids x items N true).toOption.map List.length =
         some (min N
           (((qids.zip (x.zip items)).filter (fun r => decide (r.1 = user))).length))) ∧
    (∀ (N : Nat) (preds : List ℚ) (k : Nat),
       (recsIndex N preds k).Pairwise (fun a b =>
         preds.getD b 0 < preds.getD a 0 ∨ (preds.getD a 0 = preds.getD b 0 ∧ a < b))) ∧
    (∀ (props : List Property) (model : Option (List ℚ → ℚ)) (user : String)
       (qids : List String) (x : List (List ℚ)) (items : List String) (N : Nat)
       (average : Bool),
       recommend props model user qids x items N average =
         recommend props model user
           (((qids.zip (x.zip items)).filter (fun r => decide (r.1 = user))).map
             (fun r => r.1))
           (((qids.zip (x.zip items)).filter (fun r => decide (r.1 = user))).map
             (fun r => r.2.1))
           (((qids.zip (x.zip items)).filter (fun r => decide (r.1 = user))).map
             (fun r => r.2.2))
           N average) ∧
    (recommend props1 none "u" ["u", "u", "u", "u"]
       [[9 / 10], [1 / 2], [9 / 10], [1 / 5]] ["A", "B", "C", "D"] 2 true =
       .ok [("A", "feedback"), ("C", "feedback")]) := by
  refine ⟨?_, ?_, ?_, ?_, ?_⟩
  · intro props model user qids x items N hsub
    simp [recommend, hsub, recsIndex, sortDesc, Except.map]
  · intro props model user qids x items N
    simp [recommend, Except.map, Except.toOption, recsIndex_length, List.length_map]
  · intro N preds k
    refine (recsIndex_pairwise N preds k).imp ?_
    intro a b h
    exact h
  · intro props model user qids x items N average
    have hz := zip_proj_eq ((qids.zip (x.zip items)).filter (fun r => decide (r.1 = user)))
    have hf : ((qids.zip (x.zip items)).filter (fun r => decide (r.1 = user))).filter
        (fun r => decide (r.1 = user)) =
        (qids.zip (x.zip items)).filter (fun r => decide (r.1 = user)) :=
      List.filter_eq_self.mpr (fun a ha => (List.mem_filter.mp ha).2)
    simp only [recommend, hz, hf]
  · norm_num [recommend, recsIndex, sortDesc, insDesc, mean, argmaxIdx, dominantName,
      props1, Property.init, List.range, List.range.loop, Except.map,
      List.filter_cons, List.filter_nil]

/-- Witness for C7: a call whose query id matches no row returns the empty
list. -/
theorem C7_recommend_topn_witness :
    recommend props1 none "u" ["v"] [[1]] ["Z"] 3 true = .ok [] :=
  C7_recommend_topn.1 props1 none "u" ["v"] [[1]] ["Z"] 3 (by decide)

/-- C9: Property construction never validates the typology — init stores
any string unchanged — while the typology setter succeeds exactly on the
three allowed strings and raises ValueError exactly on everything else. -/
theorem C9_property_validation :
    (∀ (name typology : String), (Property.init name typology).typology = typology) ∧
    (∀ (p : Property) (v : String),
       Property.setTypology p v = .ok { p with typology := v } ↔
         (v = "collaborative" ∨ v = "content" ∨ v = "social")) ∧
    (∀ (p : Property) (v : String),
       Property.setTypology p v =
           .error "Type of property can be: collaborative, content or social" ↔
         ¬(v = "collaborative" ∨ v = "content" ∨ v = "social")) := by
  refine ⟨fun _ _ => rfl, ?_, ?_⟩
  · intro p v
    unfold Property.setTypology
    by_cases h : v = "collaborative" ∨ v = "content" ∨ v = "social"
    · rw [if_neg (by tauto)]
      simp [h]
    · rw [if_pos (by tauto)]
      simp [h]
  · intro p v
    unfold Property.setTypology
    by_cases h : v = "collaborative" ∨ v = "content" ∨ v = "social"
    · rw [if_neg (by tauto)]
      simp [h]
    · rw [if_pos (by tauto)]
      simp [h]

/-- C10: on the model path (average = False) with no trained model,
recommend raises the attribute error for every input — unlike predict,
whose untrained flat path falls back to the row-wise mean and never
errors. -/
theorem C10_recommend_no_fallback :
    (∀ (props : List Property) (user : String) (qids : List String)
       (x : List (List ℚ)) (items : List String) (N : Nat),
       recommend props none user qids x items N false =
         .error "AttributeError: NoneType object has no attribute predict") ∧
    (∀ (models : List (Nat × (List ℚ → ℚ))) (x : List (List ℚ)) (qids : List String),
       predict none models none x qids = .ok (x.map mean)) :=
  ⟨fun _ _ _ _ _ _ => rfl, fun _ _ _ => rfl⟩

theorem clusterPreds_eq (table : List (String × Nat)) (models : List (Nat × (List ℚ → ℚ)))
    (rows : List (List ℚ × String)) (f : String → Nat) (g : Nat → List ℚ → ℚ)
    (h : ∀ p ∈ rows, dictGet table p.2 = some (f p.2) ∧
      dictGet models (f p.2) = some (g (f p.2))) :
    clusterPreds table models rows = .ok (rows.map (fun p => g (f p.2) p.1)) := by
  induction rows with
  | nil => rfl
  | cons q t ih =>
    obtain ⟨line, qid⟩ := q
    obtain ⟨h1, h2⟩ := h (line, qid) (List.mem_cons_self _ _)
    simp only [clusterPreds, h1, h2]
    rw [ih (fun p hp => h p (List.mem_cons_of_mem _ hp))]
    rfl

theorem clusterPreds_ok_lookup (table : List (String × Nat))
    (models : List (Nat × (List ℚ → ℚ))) (rows : List (List ℚ × String))
    (h : isOkE (clusterPreds table models rows) = true) :
    ∀ p ∈ rows, (dictGet table p.2).isSome = true := by
  induction rows with
  | nil =>
    intro p hp
    cases hp
  | cons q t ih =>
    obtain ⟨line, qid⟩ := q
    intro p hp
    cases hg : dictGet table qid with
    | none => simp [clusterPreds, hg, isOkE] at h
    | some cluster =>
      rcases List.mem_cons.mp hp with rfl | hp'
      · simp [hg]
      · cases hm : dictGet models cluster with
        | none => simp [clusterPreds, hg, hm, isOkE] at h
        | some m =>
          refine ih ?_ p hp'
          simp only [clusterPreds, hg, hm] at h
          cases hr : clusterPreds table models t with
          | error e =>
            rw [hr] at h
            simp [Except.map, isOkE] at h
          | ok v => simp [isOkE]

/-- C5: predict dispatch — with a truthy routing table, every row is scored
by the dedicated model of its query id's cluster and the per-row
predictions are collected in input order (conjunct 1); a query id without a
cluster mapping fails the whole batch (conjunct 2); with no routing table
and no trained model, predict returns the row-wise means and never errors
(conjunct 3). -/
theorem C5_predict_dispatch :
    (∀ (table : List (String × Nat)) (models : List (Nat × (List ℚ → ℚ)))
       (model : Option (List ℚ → ℚ)) (x_test : List (List ℚ)) (qids_test : List String)
       (f : String → Nat) (g : Nat → List ℚ → ℚ),
       table ≠ [] →
       (∀ p ∈ x_test.zip qids_test, dictGet table p.2 = some (f p.2) ∧
         dictGet models (f p.2) = some (g (f p.2))) →
       predict (some table) models model x_test qids_test =
         .ok ((x_test.zip qids_test).map (fun p => g (f p.2) p.1))) ∧
    (∀ (table : List (String × Nat)) (models : List (Nat × (List ℚ → ℚ)))
       (model : Option (List ℚ → ℚ)) (x_test : List (List ℚ)) (qids_test : List String)
       (p : List ℚ × String),
       table ≠ [] → p ∈ x_test.zip qids_test → dictGet table p.2 = none →
       isOkE (predict (some table) models model x_test qids_test) = false) ∧
    (∀ (models : List (Nat × (List ℚ → ℚ))) (x_test : List (List ℚ))
       (qids_test : List String),
       predict none models none x_test qids_test = .ok (x_test.map mean)) := by
  refine ⟨?_, ?_, fun _ _ _ => rfl⟩
  · intro table models model x_test qids_test f g htne h
    have ht : truthyTable (some table) = true := by
      cases table with
      | nil => exact absurd rfl htne
      | cons a l => rfl
    simp only [predict, ht, if_true, Option.getD]
    exact clusterPreds_eq table models _ f g h
  · intro table models model x_test qids_test p htne hp hnone
    have ht : truthyTable (some table) = true := by
      cases table with
      | nil => exact absurd rfl htne
      | cons a l => rfl
    have hpred : predict (some table) models model x_test qids_test =
        clusterPreds table models (x_test.zip qids_test) := by
      simp only [predict, ht, if_true, Option.getD]
    rw [hpred]
    cases hok : isOkE (clusterPreds table models (x_test.zip qids_test)) with
    | false => rfl
    | true =>
      have := clusterPreds_ok_lookup table models _ hok p hp
      rw [hnone] at this
      simp at this

/-- Prediction stub for the dispatch witness: the first feature of the
row. -/
def headModel : List ℚ → ℚ := fun l => l.headD 0

/-- Witness for C5: a two-row batch routed through cluster 1 scores each row
with the cluster model, in input order. -/
theorem C5_predict_dispatch_witness :
    predict (some [("u", 1)]) [(1, headModel)] none [[1, 2], [3]] ["u", "u"] =
      .ok [1, 3] := by
  have h := C5_predict_dispatch.1 [("u", 1)] [(1, headModel)] none [[1, 2], [3]]
    ["u", "u"] (fun _ => 1) (fun _ => headModel) (by decide) ?hyp
  · exact h.trans rfl
  case hyp =>
    intro p hp
    rcases List.mem_cons.mp hp with rfl | hp'
    · exact ⟨rfl, rfl⟩
    · rcases List.mem_cons.mp hp' with rfl | hp''
      · exact ⟨rfl, rfl⟩
      · cases hp''

/-- Diffusion stub returning no mass anywhere, for the degenerate-input
refutation. -/
def pagerank0 : Unit → ℚ → List Nat → List (Nat × ℚ) := fun _ _ _ => []

/-- Trivial graph builder over the unit graph type. -/
def constructGraph0 : List (Nat × List Rating) → Unit := fun _ => ()

/-- A fresh positive-only recommender instance. -/
def prState0 : PRState Unit := ⟨none, none, true, []⟩

/-- C4: with positive-only filtering, a training set whose single user has
only a negative rating leaves every validation user without seed entities,
so fit reaches the unguarded hits / count with count = 0 and raises
ZeroDivisionError instead of detecting and reporting the empty
denominator. -/
theorem C4_zero_denominator_division :
    pr_fit pagerank0 constructGraph0 prState0 [(1, [⟨5, 0⟩])] [(1, 7, [8])] =
      .error "ZeroDivisionError" := rfl

/-- The validation users eligible for evaluation at calibration time: those
with at least one seed entity. -/
def eligList (only_positive : Bool) (user_ratings : List (Nat × List Rating))
    (validation : List (Nat × Nat × List Nat)) : List (Nat × Nat × List Nat) :=
  validation.filter (fun uv => !(seedsOf only_positive user_ratings uv.1).isEmpty)

/-- Number of eligible validation users whose true item reaches the top 10
at a given alpha. -/
def hitsCount {G : Type} (pagerank : G → ℚ → List Nat → List (Nat × ℚ)) (g : G)
    (only_positive : Bool) (user_ratings : List (Nat × List Rating)) (alpha : ℚ)
    (validation : List (Nat × Nat × List Nat)) : Nat :=
  ((eligList only_positive user_ratings validation).filter
    (fun uv => pr_validate pagerank g alpha (seedsOf only_positive user_ratings uv.1)
      uv.2.1 uv.2.2 10)).length

/-- The alpha table fit builds: per grid alpha, hits over eligible users. -/
def calibTable {G : Type} (pagerank : G → ℚ → List Nat → List (Nat × ℚ)) (g : G)
    (only_positive : Bool) (user_ratings : List (Nat × List Rating))
    (validation : List (Nat × Nat × List Nat)) : List (ℚ × ℚ) :=
  alphaRanges.map (fun a => (a, (hitsCount pagerank g only_positive user_ratings a validation : ℚ) /
    ((eligList only_positive user_ratings validation).length : ℚ)))

theorem gsn_eq (op : Bool) (ur : List (Nat × List Rating)) (u : Nat)
    (h : (dictGet ur u).isSome = true) :
    get_source_nodes op ur u = .ok (seedsOf op ur u) := by
  cases hg : dictGet ur u with
  | none =>
    rw [hg] at h
    cases h
  | some rs => simp [get_source_nodes, seedsOf, hg]

theorem alphaStats_eq {G : Type} (pagerank : G → ℚ → List Nat → List (Nat × ℚ)) (g : G)
    (op : Bool) (ur : List (Nat × List Rating)) (alpha : ℚ)
    (validation : List (Nat × Nat × List Nat)) :
    ∀ acc : Nat × Nat, (∀ uv ∈ validation, (dictGet ur uv.1).isSome = true) →
      alphaStats pagerank g op ur alpha acc validation =
        .ok (acc.1 + hitsCount pagerank g op ur alpha validation,
             acc.2 + (eligList op ur validation).length) := by
  induction validation with
  | nil =>
    intro acc _
    simp [alphaStats, hitsCount, eligList]
  | cons uv rest ih =>
    intro acc h
    obtain ⟨user, vt⟩ := uv
    have hs := h (user, vt) (List.mem_cons_self _ _)
    have hrest := fun uv huv => h uv (List.mem_cons_of_mem _ huv)
    rw [alphaStats, gsn_eq op ur user hs]
    simp only [Bind.bind, Except.bind]
    cases hempty : (seedsOf op ur user).isEmpty with
    | true =>
      have he : eligList op ur ((user, vt) :: rest) = eligList op ur rest := by
        simp [eligList, List.filter_cons, hempty]
      simp only [hempty, if_true]
      rw [ih acc hrest]
      simp [hitsCount, he]
    | false =>
      have he : eligList op ur ((user, vt) :: rest) =
          (user, vt) :: eligList op ur rest := by
        simp [eligList, List.filter_cons, hempty]
      simp only [hempty, Bool.false_eq_true, if_false]
      rw [ih _ hrest]
      cases hv : pr_validate pagerank g alpha (seedsOf op ur user) vt.1 vt.2 10 with
      | true =>
        have hc : hitsCount pagerank g op ur alpha ((user, vt) :: rest) =
            hitsCount pagerank g op ur alpha rest + 1 := by
          simp [hitsCount, he, List.filter_cons, hv]
        rw [hc, he]
        simp only [hv, if_true, List.length_cons, Prod.mk.injEq, Except.ok.injEq]
        constructor <;> omega
      | false =>
        have hc : hitsCount pagerank g op ur alpha ((user, vt) :: rest) =
            hitsCount pagerank g op ur alpha rest := by
          simp [hitsCount, he, List.filter_cons, hv]
        rw [hc, he]
        simp only [hv, Bool.false_eq_true, if_false, List.length_cons, Prod.mk.injEq,
          Except.ok.injEq]
        constructor <;> omega

theorem alphaTable_eq {G : Type} (pagerank : G → ℚ → List Nat → List (Nat × ℚ)) (g : G)
    (op : Bool) (ur : List (Nat × List Rating)) (validation : List (Nat × Nat × List Nat))
    (h : ∀ uv ∈ validation, (dictGet ur uv.1).isSome = true)
    (hne : eligList op ur validation ≠ []) (as : List ℚ) :
    alphaTable pagerank g op ur validation as =
      .ok (as.map (fun a => (a, (hitsCount pagerank g op ur a validation : ℚ) /
        ((eligList op ur validation).length : ℚ)))) := by
  induction as with
  | nil => rfl
  | cons a rest ih =>
    rw [alphaTable, alphaStats_eq pagerank g op ur a validation (0, 0) h]
    have hlen : (eligList op ur validation).length ≠ 0 := by
      simpa [List.length_eq_zero] using hne
    simp only [Bind.bind, Except.bind, Nat.zero_add]
    rw [if_neg hlen, ih]
    rfl

theorem foldl_max_keep (l : List (ℚ × ℚ)) (x : ℚ × ℚ) (h : ∀ p ∈ l, p.2 ≤ x.2) :
    l.foldl (fun best p => if p.2 > best.2 then p else best) x = x := by
  induction l with
  | nil => rfl
  | cons p t ih =>
    have hp : ¬(p.2 > x.2) := not_lt_of_le (h p (List.mem_cons_self _ _))
    rw [List.foldl_cons, if_neg hp]
    exact ih (fun q hq => h q (List.mem_cons_of_mem _ hq))

theorem maxByValue_eq_none (l : List (ℚ × ℚ)) : maxByValue l = none ↔ l = [] := by
  cases l with
  | nil => simp [maxByValue]
  | cons x xs => simp [maxByValue]

/-- C6: during calibration, only validation users with at least one seed
entity are evaluated — conjunct 1 shows fit succeeds with the alpha table
ranging over the grid, where for each alpha both the hit numerator and the
denominator are computed over exactly the eligible users, and the stored
alpha is the table arg-max; conjunct 2 shows Python max keeps the first
entry on ties, so the first-encountered alpha in grid order wins; conjunct
3 is the concrete table 0.1 to 0.2, 0.3 to 0.9, 0.5 to 0.4 selecting 0.3;
conjunct 4 shows predict scores with the stored graph and the stored
operating alpha. -/
theorem C6_calibration :
    (∀ (G : Type) (pagerank : G → ℚ → List Nat → List (Nat × ℚ))
       (construct_graph : List (Nat × List Rating) → G) (st : PRState G)
       (training : List (Nat × List Rating)) (validation : List (Nat × Nat × List Nat)),
       (∀ uv ∈ validation,
         (dictGet (buildUserRatings st.user_ratings training) uv.1).isSome = true) →
       eligList st.only_positive (buildUserRatings st.user_ratings training)
         validation ≠ [] →
       pr_fit pagerank construct_graph st training validation =
         .ok ({ graph := some (construct_graph training),
                alpha := maxByValue (calibTable pagerank (construct_graph training)
                  st.only_positive (buildUserRatings st.user_ratings training) validation),
                only_positive := st.only_positive,
                user_ratings := buildUserRatings st.user_ratings training },
              calibTable pagerank (construct_graph training) st.only_positive
                (buildUserRatings st.user_ratings training) validation)) ∧
    (∀ (a r : ℚ) (l : List (ℚ × ℚ)), (∀ p ∈ l, p.2 ≤ r) →
       maxByValue ((a, r) :: l) = some a) ∧
    (maxByValue [(1 / 10, 1 / 5), (3 / 10, 9 / 10), (1 / 2, 2 / 5)] = some (3 / 10)) ∧
    (∀ (G : Type) (pagerank : G → ℚ → List Nat → List (Nat × ℚ)) (st : PRState G)
       (g : G) (a : ℚ) (user : Nat) (items : List Nat) (s : List Nat),
       st.graph = some g → st.alpha = some a →
       get_source_nodes st.only_positive st.user_ratings user = .ok s →
       pr_predict pagerank st user items = .ok (pr_scores pagerank g a s items)) := by
  refine ⟨?_, ?_, ?_, ?_⟩
  · intro G pagerank construct_graph st training validation h hne
    simp only [pr_fit]
    rw [alphaTable_eq pagerank (construct_graph training) st.only_positive
      (buildUserRatings st.user_ratings training) validation h hne alphaRanges]
    simp only [Bind.bind, Except.bind, calibTable]
    cases hmv : maxByValue (alphaRanges.map
        (fun a => (a, (hitsCount pagerank (construct_graph training) st.only_positive
          (buildUserRatings st.user_ratings training) a validation : ℚ) /
          ((eligList st.only_positive (buildUserRatings st.user_ratings training)
            validation).length : ℚ)))) with
    | none =>
      rw [maxByValue_eq_none] at hmv
      simp [alphaRanges] at hmv
      have := hmv 0
      omega
    | some a => rfl
  · intro a r l hle
    have hfold : List.foldl (fun best p => if p.2 > best.2 then p else best) (a, r) l =
        (a, r) := foldl_max_keep l (a, r) hle
    simp [maxByValue, hfold]
  · norm_num [maxByValue]
  · intro G pagerank st g a user items s hg ha hs
    rw [pr_predict, hs]
    simp only [Bind.bind, Except.bind, hg, ha]

/-- Diffusion stub for the calibration witness: entity 100 gets mass 1,
entity 200 gets mass 0. -/
def pagerank1 : Unit → ℚ → List Nat → List (Nat × ℚ) := fun _ _ _ => [(100, 1), (200, 0)]

def training1 : List (Nat × List Rating) := [(1, [⟨100, 1⟩])]

def validation1 : List (Nat × Nat × List Nat) := [(1, 100, [200])]

def prState1 : PRState Unit := ⟨none, none, false, []⟩

/-- Witness for C6: a one-user training/validation pair with a seed entity
calibrates successfully. -/
theorem C6_calibration_witness :
    isOkE (pr_fit pagerank1 constructGraph0 prState1 training1 validation1) = true := by
  have h := C6_calibration.1 Unit pagerank1 constructGraph0 prState1 training1
    validation1 (by decide) (by decide)
  rw [h]
  rfl

theorem mem_addNode (g : PRGraph) (n x : PRNode) :
    x ∈ (addNode g n).nodes ↔ x ∈ g.nodes ∨ x = n := by
  unfold addNode
  split
  case isTrue h =>
    constructor
    · exact Or.inl
    · rintro (hx | rfl)
      · exact hx
      · exact h
  case isFalse h => simp [List.mem_append]

theorem edges_addNode (g : PRGraph) (n : PRNode) : (addNode g n).edges = g.edges := by
  unfold addNode
  split <;> rfl

theorem hasEdge_addNode (g : PRGraph) (n a b : PRNode) :
    hasEdge (addNode g n) a b ↔ hasEdge g a b := by
  unfold hasEdge
  rw [edges_addNode]

theorem nodes_addEdge (g : PRGraph) (a b x : PRNode) :
    x ∈ (addEdge g a b).nodes ↔ x ∈ g.nodes ∨ x = a ∨ x = b := by
  simp only [addEdge]
  split <;> simp [mem_addNode] <;> tauto

theorem hasEdge_addEdge (g : PRGraph) (a b x y : PRNode) :
    hasEdge (addEdge g a b) x y ↔
      hasEdge g x y ∨ (x = a ∧ y = b) ∨ (x = b ∧ y = a) := by
  simp only [addEdge]
  split
  case isTrue h =>
    rw [hasEdge_addNode, hasEdge_addNode] at h ⊢
    constructor
    · exact Or.inl
    · rintro (hx | ⟨rfl, rfl⟩ | ⟨rfl, rfl⟩)
      · exact hx
      · exact h
      · exact Or.symm h
  case isFalse h =>
    simp only [hasEdge, edges_addNode, List.mem_append, List.mem_singleton,
      Prod.mk.injEq]
    tauto

theorem hasEdge_addRatings (op : Bool) (uid : PRNode) (rs : List Rating) :
    ∀ (g : PRGraph) (x y : PRNode),
      hasEdge (addRatings op uid g rs) x y ↔
        hasEdge g x y ∨ ∃ r ∈ rs, (op = false ∨ r.rating = 1) ∧
          ((x = uid ∧ y = PRNode.entity r.e_idx) ∨
           (y = uid ∧ x = PRNode.entity r.e_idx)) := by
  induction rs with
  | nil =>
    intro g x y
    simp [addRatings]
  | cons r t ih =>
    intro g x y
    rw [addRatings]
    split
    case isTrue hskip =>
      rw [ih, List.exists_mem_cons_iff]
      simp only [Bool.and_eq_true, decide_eq_true_eq] at hskip
      have hk : ¬(op = false ∨ r.rating = 1) := by
        rintro (h1 | h1)
        · rw [hskip.1] at h1
          cases h1
        · exact hskip.2 h1
      simp [hk]
    case isFalse hskip =>
      rw [ih, hasEdge_addEdge, hasEdge_addNode, List.exists_mem_cons_iff]
      have hk : op = false ∨ r.rating = 1 := by
        cases op with
        | false => exact Or.inl rfl
        | true =>
          right
          by_contra hr
          exact hskip (by simp [hr])
      simp only [hk, true_and]
      constructor
      · rintro ((hg | ⟨rfl, rfl⟩ | ⟨rfl, rfl⟩) | hrest)
        · exact Or.inl hg
        · exact Or.inr (Or.inl (Or.inl ⟨rfl, rfl⟩))
        · exact Or.inr (Or.inl (Or.inr ⟨rfl, rfl⟩))
        · exact Or.inr (Or.inr hrest)
      · rintro (hg | (⟨rfl, rfl⟩ | ⟨rfl, rfl⟩) | hrest)
        · exact Or.inl (Or.inl hg)
        · exact Or.inl (Or.inr (Or.inl ⟨rfl, rfl⟩))
        · exact Or.inl (Or.inr (Or.inr ⟨rfl, rfl⟩))
        · exact Or.inr hrest

theorem mem_addRatings (op : Bool) (uid : PRNode) (rs : List Rating) :
    ∀ (g : PRGraph) (x : PRNode),
      x ∈ (addRatings op uid g rs).nodes ↔
        x ∈ g.nodes ∨ ∃ r ∈ rs, (op = false ∨ r.rating = 1) ∧
          (x = PRNode.entity r.e_idx ∨ x = uid) := by
  induction rs with
  | nil =>
    intro g x
    simp [addRatings]
  | cons r t ih =>
    intro g x
    rw [addRatings]
    split
    case isTrue hskip =>
      rw [ih, List.exists_mem_cons_iff]
      simp only [Bool.and_eq_true, decide_eq_true_eq] at hskip
      have hk : ¬(op = false ∨ r.rating = 1) := by
        rintro (h1 | h1)
        · rw [hskip.1] at h1
          cases h1
        · exact hskip.2 h1
      simp [hk]
    case isFalse hskip =>
      rw [ih, nodes_addEdge, mem_addNode, List.exists_mem_cons_iff]
      have hk : op = false ∨ r.rating = 1 := by
        cases op with
        | false => exact Or.inl rfl
        | true =>
          right
          by_contra hr
          exact hskip (by simp [hr])
      simp only [hk, true_and]
      constructor
      · rintro (((hg | rfl) | rfl | rfl) | hrest)
        · exact Or.inl hg
        · exact Or.inr (Or.inl (Or.inl rfl))
        · exact Or.inr (Or.inl (Or.inr rfl))
        · exact Or.inr (Or.inl (Or.inl rfl))
        · exact Or.inr (Or.inr hrest)
      · rintro (hg | (rfl | rfl) | hrest)
        · exact Or.inl (Or.inl (Or.inl hg))
        · exact Or.inl (Or.inl (Or.inr rfl))
        · exact Or.inl (Or.inr (Or.inl rfl))
        · exact Or.inr hrest

theorem hasEdge_construct (op : Bool) (training : List (Nat × List Rating)) :
    ∀ (g : PRGraph) (x y : PRNode),
      hasEdge (construct_collaborative_graph g training op) x y ↔
        hasEdge g x y ∨ ∃ p ∈ training, ∃ r ∈ p.2, (op = false ∨ r.rating = 1) ∧
          ((x = PRNode.user ("user_" ++ toString p.1) ∧ y = PRNode.entity r.e_idx) ∨
           (y = PRNode.user ("user_" ++ toString p.1) ∧ x = PRNode.entity r.e_idx)) := by
  induction training with
  | nil =>
    intro g x y
    simp [construct_collaborative_graph]
  | cons p rest ih =>
    intro g x y
    obtain ⟨u, rs⟩ := p
    rw [construct_collaborative_graph, ih, hasEdge_addRatings, hasEdge_addNode,
      List.exists_mem_cons_iff]
    dsimp only
    constructor
    · rintro ((hg | hp) | hrest)
      · exact Or.inl hg
      · exact Or.inr (Or.inl hp)
      · exact Or.inr (Or.inr hrest)
    · rintro (hg | hp | hrest)
      · exact Or.inl (Or.inl hg)
      · exact Or.inl (Or.inr hp)
      · exact Or.inr hrest

theorem mem_construct (op : Bool) (training : List (Nat × List Rating)) :
    ∀ (g : PRGraph) (x : PRNode),
      x ∈ (construct_collaborative_graph g training op).nodes ↔
        x ∈ g.nodes ∨ ∃ p ∈ training,
          (x = PRNode.user ("user_" ++ toString p.1) ∨
           ∃ r ∈ p.2, (op = false ∨ r.rating = 1) ∧ x = PRNode.entity r.e_idx) := by
  induction training with
  | nil =>
    intro g x
    simp [construct_collaborative_graph]
  | cons p rest ih =>
    intro g x
    obtain ⟨u, rs⟩ := p
    rw [construct_collaborative_graph, ih, mem_addRatings, mem_addNode,
      List.exists_mem_cons_iff]
    constructor
    · rintro (((hg | rfl) | ⟨r, hr, hk, he | rfl⟩) | hrest)
      · exact Or.inl hg
      · exact Or.inr (Or.inl (Or.inl rfl))
      · exact Or.inr (Or.inl (Or.inr ⟨r, hr, hk, he⟩))
      · exact Or.inr (Or.inl (Or.inl rfl))
      · exact Or.inr (Or.inr hrest)
    · rintro (hg | (rfl | ⟨r, hr, hk, he⟩) | hrest)
      · exact Or.inl (Or.inl (Or.inl hg))
      · exact Or.inl (Or.inl (Or.inr rfl))
      · exact Or.inl (Or.inr ⟨r, hr, hk, Or.inl he⟩)
      · exact Or.inr hrest

/-- C8: over the empty initial graph, the collaborative graph contains a
(user, entity) edge exactly for the kept ratings (all ratings, or the
rating-1 ones under positive-only), a synthetic user node for every
training pair, and an entity node exactly when some kept rating mentions
the entity (so an entity whose only mention is filtered out is absent); on
training [(u1, [(e1, 1), (e2, 0)])] with positive_only the edge to e1
exists and the edge to e2 does not. -/
theorem C8_graph_construction :
    (∀ (training : List (Nat × List Rating)) (op : Bool) (x y : PRNode),
       hasEdge (construct_collaborative_graph emptyGraph training op) x y ↔
         ∃ p ∈ training, ∃ r ∈ p.2, (op = false ∨ r.rating = 1) ∧
           ((x = PRNode.user ("user_" ++ toString p.1) ∧ y = PRNode.entity r.e_idx) ∨
            (y = PRNode.user ("user_" ++ toString p.1) ∧
              x = PRNode.entity r.e_idx))) ∧
    (∀ (training : List (Nat × List Rating)) (op : Bool) (s : String),
       PRNode.user s ∈ (construct_collaborative_graph emptyGraph training op).nodes ↔
         ∃ p ∈ training, s = "user_" ++ toString p.1) ∧
    (∀ (training : List (Nat × List Rating)) (op : Bool) (e : Nat),
       PRNode.entity e ∈ (construct_collaborative_graph emptyGraph training op).nodes ↔
         ∃ p ∈ training, ∃ r ∈ p.2, (op = false ∨ r.rating = 1) ∧ r.e_idx = e) ∧
    (hasEdge (construct_collaborative_graph emptyGraph [(1, [⟨10, 1⟩, ⟨20, 0⟩])] true)
       (PRNode.user "user_1") (PRNode.entity 10) ∧
     ¬hasEdge (construct_collaborative_graph emptyGraph [(1, [⟨10, 1⟩, ⟨20, 0⟩])] true)
       (PRNode.user "user_1") (PRNode.entity 20)) := by
  refine ⟨?_, ?_, ?_, by decide⟩
  · intro training op x y
    rw [hasEdge_construct]
    simp [hasEdge, emptyGraph]
  · intro training op s
    rw [mem_construct]
    simp [emptyGraph]
  · intro training op e
    rw [mem_construct]
    simp [emptyGraph, eq_comm]

end WarmStart
